import Mathlib

/-!
Shallow embedding of `nav.ipdevpoll.schedule.NetboxJobScheduler`
(python/nav/ipdevpoll/schedule.py).

Each `NetboxJobScheduler` instance handles scheduling, running and
rescheduling of a single job for a single netbox.  The class-level
dictionaries `job_counters` and `job_queues` are shared across all
instances; they are modelled here as total functions with the same
defaults the Python `dict.get(name, 0)` / missing-key-means-empty-list
accesses give.  The Twisted reactor is modelled as an event system: a
`timerFire` event may occur for an instance whose `_next_call` timer is
armed, a `complete` event may occur for an instance whose handler is
running, and the public methods `cancel` and `reschedule` may be called
at any time.  Time is abstract: an armed timer stores its delay, and
events carry the current clock value `now`.
-/

namespace NavSchedule

/-- A job descriptor as loaded from configuration: a unique name, the
polling interval in seconds and the intensity ceiling (0 = unlimited). -/
structure JobDesc where
  name : String
  interval : Int
  intensity : Int
deriving DecidableEq

/-- The per-instance state of one `NetboxJobScheduler`
(one (job, netbox) pair).  `jobHandler` is the presence of
`self.job_handler`, `nextCall` models `self._next_call` (`some d` is an
armed timer with delay `d`), `deferredFired` records whether the
lifetime deferred created in `__init__` has been fired by `cancel`. -/
structure Sched where
  job : JobDesc
  cancelled : Bool
  jobHandler : Bool
  nextCall : Option Int
  lastJobStartedAt : Int
  deferredFired : Bool
deriving DecidableEq

/-- The whole-system state: the list of scheduler instances (indexed by
position) plus the class-level shared dictionaries `job_counters` and
`job_queues` (queues hold instance indices). -/
structure SysState where
  insts : List Sched
  jobCounters : String → Int
  jobQueues : String → List Nat

/-- List lookup by position (`none` when out of range). -/
def listGet {α : Type} : List α → Nat → Option α
  | [], _ => none
  | a :: _, 0 => some a
  | _ :: l, n + 1 => listGet l n

/-- Apply `f` to the element at position `i`, if any. -/
def listModify {α : Type} (f : α → α) : Nat → List α → List α
  | _, [] => []
  | 0, a :: l => f a :: l
  | n + 1, a :: l => a :: listModify f n l

/-- Read instance `i` of the system. -/
def getInst (s : SysState) (i : Nat) : Option Sched :=
  listGet s.insts i

/-- Update instance `i` of the system in place. -/
def updInst (s : SysState) (i : Nat) (f : Sched → Sched) : SysState :=
  { s with insts := listModify f i s.insts }

/-- `get_job_count`: `job_counters.get(self.job.name, 0)`. -/
def get_job_count (s : SysState) (name : String) : Int :=
  s.jobCounters name

/-- `count_job`: increment the class-level counter for this job name. -/
def count_job (s : SysState) (name : String) : SysState :=
  { s with jobCounters :=
      fun n => if n = name then s.jobCounters name + 1 else s.jobCounters n }

/-- `uncount_job`: decrement the class-level counter for this job name,
clamping at zero (`max(current_count, 0)` in the source). -/
def uncount_job (s : SysState) (name : String) : SysState :=
  { s with jobCounters :=
      fun n => if n = name then max (s.jobCounters name - 1) 0 else s.jobCounters n }

/-- `is_job_limit_reached`: true when the number of running jobs of this
name has reached the intensity setting; an intensity of 0 disables the
limit. -/
def is_job_limit_reached (s : SysState) (job : JobDesc) : Bool :=
  decide (0 < job.intensity) && decide (job.intensity ≤ get_job_count s job.name)

/-- `get_job_queue`: the class-level queue for this job name (a missing
key means the empty list). -/
def get_job_queue (s : SysState) (name : String) : List Nat :=
  s.jobQueues name

/-- Replace the queue stored under `name`. -/
def setQueue (s : SysState) (name : String) (q : List Nat) : SysState :=
  { s with jobQueues :=
      fun n => if n = name then q else s.jobQueues n }

/-- `queue_myself`: append this instance to the queue for its job name. -/
def queue_myself (s : SysState) (i : Nat) (name : String) : SysState :=
  setQueue s name (get_job_queue s name ++ [i])

/-- `start`: arm an immediate timer for instance `k`
(`reactor.callLater(0, self.run_job)`); the lifetime deferred is
returned by the source and left untouched here. -/
def start (s : SysState) (k : Nat) : SysState :=
  updInst s k (fun t => { t with nextCall := some 0 })

/-- `unqueue_next_job`: when the intensity ceiling permits and the queue
for this job name is non-empty, pop the head of the queue and start it. -/
def unqueue_next_job (s : SysState) (job : JobDesc) : SysState :=
  if is_job_limit_reached s job then s
  else
    match get_job_queue s job.name with
    | [] => s
    | k :: rest => start (setQueue s job.name rest) k

/-- `reschedule(delay)`: ignored for a cancelled instance; otherwise the
pending timer is reset to `delay` (or a fresh timer armed at `delay`). -/
def reschedule (s : SysState) (i : Nat) (delay : Int) : SysState :=
  match getInst s i with
  | none => s
  | some inst =>
      if inst.cancelled then s
      else updInst s i (fun t => { t with nextCall := some delay })

/-- `cancel`: a second call is a no-op; otherwise cancel any armed
timer, mark the instance cancelled, request cooperative cancellation of
a running handler (a signal to the handler, not a state change here) and
fire the lifetime deferred. -/
def cancel (s : SysState) (i : Nat) : SysState :=
  match getInst s i with
  | none => s
  | some inst =>
      if inst.cancelled then s
      else updInst s i
        (fun t => { t with nextCall := none, cancelled := true, deferredFired := true })

/-- `run_job`: skip when a handler is still running; queue when the
intensity ceiling is reached; on handler construction failure
(`ctorOk = false`) reschedule after 60 seconds; otherwise record the
handler, bump the counter and record the start time. -/
def run_job (s : SysState) (i : Nat) (now : Int) (ctorOk : Bool) : SysState :=
  match getInst s i with
  | none => s
  | some inst =>
      if inst.jobHandler then s
      else if is_job_limit_reached s inst.job then queue_myself s i inst.job.name
      else if !ctorOk then reschedule s i 60
      else count_job
        (updInst s i (fun t => { t with jobHandler := true, lastJobStartedAt := now }))
        inst.job.name

/-- `get_runtime`: seconds passed since the start of the last job. -/
def get_runtime (inst : Sched) (now : Int) : Int :=
  now - inst.lastJobStartedAt

/-- `_reschedule_on_success`: reschedule the next normal run at delay
`max(0, interval - runtime)`. -/
def reschedule_on_success (s : SysState) (i : Nat) (now : Int) : SysState :=
  match getInst s i with
  | none => s
  | some inst => reschedule s i (max 0 (inst.job.interval - get_runtime inst now))

/-- The failure a job handler run can end with. -/
inductive JobFailure : Type
  | suggestedReschedule (delay : Int)
  | abortedJob
  | otherFailure
deriving DecidableEq

/-- Modelled from the spec: the exception hierarchy of
`nav.ipdevpoll.jobs` (the module defining `AbortedJobError` and
`SuggestedReschedule`) is not among the sources; the spec treats both
the suggested-reschedule and the aborted signal as expected control
flow that must not surface as an unhandled error, so both are accepted
by `failure.trap(AbortedJobError)`, i.e. `SuggestedReschedule` is an
`AbortedJobError`. -/
def is_aborted_job_error : JobFailure → Bool
  | .suggestedReschedule _ => true
  | .abortedJob => true
  | .otherFailure => false

/-- Python `random.randint(a, b)`: a uniform integer `N` with
`a ≤ N ≤ b` (both endpoints included); `r` is the random source. -/
def randint (a b : Int) (r : Nat) : Int :=
  a + (r : Int) % (b - a + 1)

/-- `_reschedule_on_failure`: a `SuggestedReschedule` carries its own
delay, any other failure gets `randint(5*60, 10*60)`; then
`failure.trap(AbortedJobError)` swallows aborted-run failures and
re-raises everything else (the second component is the failure that
propagates out of this errback, if any). -/
def reschedule_on_failure (s : SysState) (i : Nat) (f : JobFailure) (rand : Nat) :
    SysState × Option JobFailure :=
  let delay : Int :=
    match f with
    | .suggestedReschedule d => d
    | _ => randint (5 * 60) (10 * 60) rand
  (reschedule s i delay, if is_aborted_job_error f then none else some f)

/-- `_unregister_handler`: clear the running handler, decrement the
class-level counter and hand the freed slot to the next queued
instance. -/
def unregister_handler (s : SysState) (i : Nat) : SysState :=
  match getInst s i with
  | none => s
  | some inst =>
      if inst.jobHandler then
        unqueue_next_job
          (uncount_job (updInst s i (fun t => { t with jobHandler := false })) inst.job.name)
          inst.job
      else s

/-- The outcome a handler run completes with: the callback path (any
success value, a no-op run being a falsy one) or the errback path. -/
inductive JobResult : Type
  | success (didWork : Bool)
  | failure (f : JobFailure)
deriving DecidableEq

/-- What the completion callback chain makes externally observable:
whether `_log_unhandled_error` logged an unhandled failure. -/
structure CompletionObs where
  unhandledLogged : Bool
deriving DecidableEq

/-- The deferred callback chain attached in `run_job`:
`addCallbacks(_reschedule_on_success, _reschedule_on_failure)`, then
`addErrback(_log_unhandled_error)` (which consumes any re-raised
failure, returning the chain to the callback path), then
`addCallback(_unregister_handler)`. -/
def handle_completion (s : SysState) (i : Nat) (res : JobResult) (now : Int)
    (rand : Nat) : SysState × CompletionObs :=
  match res with
  | .success _ => (unregister_handler (reschedule_on_success s i now) i, ⟨false⟩)
  | .failure f =>
      let sp := reschedule_on_failure s i f rand
      (unregister_handler sp.1 i, ⟨sp.2.isSome⟩)

/-- An event of the reactor loop: a timer firing for instance `i`
(possible only while its timer is armed; `ctorOk` tells whether the
`JobHandler` constructor succeeds), a running handler completing,
or a call to the public methods `cancel` / `reschedule`. -/
inductive Event : Type
  | timerFire (i : Nat) (now : Int) (ctorOk : Bool)
  | complete (i : Nat) (res : JobResult) (now : Int) (rand : Nat)
  | cancelCall (i : Nat)
  | rescheduleCall (i : Nat) (delay : Int)

/-- One atomic event of the single-threaded reactor.  A `timerFire` on
an unarmed instance and a `complete` on an idle instance cannot occur
and leave the state unchanged. -/
def step (s : SysState) (e : Event) : SysState :=
  match e with
  | .timerFire i now ctorOk =>
      match getInst s i with
      | none => s
      | some inst =>
          match inst.nextCall with
          | none => s
          | some _ => run_job (updInst s i (fun t => { t with nextCall := none })) i now ctorOk
  | .complete i res now rand =>
      match getInst s i with
      | none => s
      | some inst =>
          if inst.jobHandler then (handle_completion s i res now rand).1 else s
  | .cancelCall i => cancel s i
  | .rescheduleCall i delay => reschedule s i delay

/-- A freshly constructed and started scheduler (`__init__` followed by
`start`, as `JobScheduler.add_netbox_scheduler` does): not cancelled, no
handler, an immediate timer armed. -/
def freshSched (job : JobDesc) : Sched :=
  { job := job, cancelled := false, jobHandler := false, nextCall := some 0,
    lastJobStartedAt := 0, deferredFired := false }

/-- The system right after one scheduler per (job, netbox) pair has been
created and started: empty counters and queues. -/
def initState (jobs : List JobDesc) : SysState :=
  { insts := jobs.map freshSched, jobCounters := fun _ => 0, jobQueues := fun _ => [] }

/-- The states the reactor can drive the system into. -/
inductive Reachable (jobs : List JobDesc) : SysState → Prop
  | init : Reachable jobs (initState jobs)
  | step (s : SysState) (e : Event) : Reachable jobs s → Reachable jobs (step s e)

/-- Job names are unique configuration keys, so all instances sharing a
name share a descriptor; this records the consequence the counter bound
needs. -/
def JobsConsistent (jobs : List JobDesc) : Prop :=
  ∀ a ∈ jobs, ∀ b ∈ jobs, a.name = b.name → a.intensity = b.intensity

/-- The job descriptors of the live instances, in order. -/
def instsJobs (s : SysState) : List JobDesc :=
  s.insts.map Sched.job

/-- The per-job-name counter bound the spec states: when the intensity
of a job is positive, the class-level counter for its name stays at or
under it. -/
def CounterInv (jobs : List JobDesc) (s : SysState) : Prop :=
  ∀ j ∈ jobs, 0 < j.intensity → s.jobCounters j.name ≤ j.intensity

/-- The pair of fields of an instance that the completion path reads:
whether a handler is running and the job descriptor. -/
def handlerAndJob (t : Sched) : Bool × JobDesc :=
  (t.jobHandler, t.job)

/-- One call to `count_job` or `uncount_job`. -/
inductive CounterOp : Type
  | countOp
  | uncountOp

/-- Run a sequence of `count_job` / `uncount_job` calls for one job
name, in order. -/
def apply_counter_ops (s : SysState) (name : String) : List CounterOp → SysState
  | [] => s
  | CounterOp.countOp :: rest => apply_counter_ops (count_job s name) name rest
  | CounterOp.uncountOp :: rest => apply_counter_ops (uncount_job s name) name rest

/-- A sample job descriptor with intensity 1, for concrete scenarios. -/
def jobInventory : JobDesc :=
  { name := "inventory", interval := 100, intensity := 1 }

/-- An instance of `jobInventory` whose handler is currently running. -/
def runningSched : Sched :=
  { job := jobInventory, cancelled := false, jobHandler := true, nextCall := none,
    lastJobStartedAt := 0, deferredFired := false }

/-- An instance of `jobInventory` that was queued after its timer fired
against a full intensity slot. -/
def queuedSched : Sched :=
  { job := jobInventory, cancelled := false, jobHandler := false, nextCall := none,
    lastJobStartedAt := 0, deferredFired := false }

/-- Two netboxes share the intensity-1 job: instance 0 is running,
instance 1 is waiting in the admission queue. -/
def pairState : SysState :=
  { insts := [runningSched, queuedSched],
    jobCounters := fun n => if n = "inventory" then 1 else 0,
    jobQueues := fun n => if n = "inventory" then [1] else [] }

/-- Two netboxes sharing the intensity-1 job, both freshly started. -/
def c3jobs : List JobDesc :=
  [jobInventory, jobInventory]

/-- Instance 0 has started running, instance 1 hit the intensity
ceiling and queued itself, then instance 1 was cancelled.  Note that
`cancel` leaves instance 1 in the shared admission queue. -/
def afterCancelState : SysState :=
  step (step (step (initState c3jobs) (Event.timerFire 0 0 true))
    (Event.timerFire 1 0 true)) (Event.cancelCall 1)

/-- Instance 0 then completes successfully: its completion pops the
cancelled instance 1 from the queue and calls `start` on it. -/
def afterPopState : SysState :=
  step afterCancelState (Event.complete 0 (JobResult.success true) 10 0)

/-- The zero-delay timer armed by that `start` fires: `run_job` never
checks `cancelled`, so a fresh handler is constructed for the cancelled
instance 1 and the counter is bumped. -/
def restartedState : SysState :=
  step afterPopState (Event.timerFire 1 10 true)

theorem listGet_modify_self {α : Type} (f : α → α) :
    ∀ (l : List α) (i : Nat), listGet (listModify f i l) i = (listGet l i).map f := by
  intro l
  induction l with
  | nil => intro i; cases i <;> rfl
  | cons a t ih =>
      intro i
      cases i with
      | zero => rfl
      | succ n => exact ih n

theorem listGet_modify_map {α β : Type} (g : α → β) (f : α → α)
    (h : ∀ a, g (f a) = g a) :
    ∀ (l : List α) (i j : Nat),
      (listGet (listModify f i l) j).map g = (listGet l j).map g := by
  intro l
  induction l with
  | nil => intro i j; cases i <;> rfl
  | cons a t ih =>
      intro i j
      cases i with
      | zero =>
          cases j with
          | zero => simp [listModify, listGet, h a]
          | succ m => rfl
      | succ n =>
          cases j with
          | zero => rfl
          | succ m => exact ih n m

theorem listGet_modify_isSome {α : Type} (f : α → α) :
    ∀ (l : List α) (i j : Nat),
      (listGet (listModify f i l) j).isSome = (listGet l j).isSome := by
  intro l
  induction l with
  | nil => intro i j; cases i <;> rfl
  | cons a t ih =>
      intro i j
      cases i with
      | zero => cases j <;> rfl
      | succ n =>
          cases j with
          | zero => rfl
          | succ m => exact ih n m

theorem listModify_map {α β : Type} (g : α → β) (f : α → α)
    (h : ∀ a, g (f a) = g a) :
    ∀ (i : Nat) (l : List α), (listModify f i l).map g = l.map g := by
  intro i l
  induction l generalizing i with
  | nil => cases i <;> rfl
  | cons a t ih =>
      cases i with
      | zero => simp [listModify, h a]
      | succ n => simp [listModify, ih n]

theorem listGet_mem {α : Type} :
    ∀ (l : List α) (i : Nat) (a : α), listGet l i = some a → a ∈ l := by
  intro l
  induction l with
  | nil => intro i a h; cases i <;> exact absurd h (by simp [listGet])
  | cons b t ih =>
      intro i a h
      cases i with
      | zero =>
          simp [listGet] at h
          simp [h]
      | succ n => exact List.mem_cons_of_mem b (ih n a h)

theorem listGet_map {α β : Type} (g : α → β) :
    ∀ (l : List α) (i : Nat), listGet (l.map g) i = (listGet l i).map g := by
  intro l
  induction l with
  | nil => intro i; cases i <;> rfl
  | cons a t ih =>
      intro i
      cases i with
      | zero => rfl
      | succ n => exact ih n

theorem counters_updInst (s : SysState) (i : Nat) (f : Sched → Sched) :
    (updInst s i f).jobCounters = s.jobCounters := rfl

theorem counters_setQueue (s : SysState) (name : String) (q : List Nat) :
    (setQueue s name q).jobCounters = s.jobCounters := rfl

theorem counters_queue_myself (s : SysState) (i : Nat) (name : String) :
    (queue_myself s i name).jobCounters = s.jobCounters := rfl

theorem counters_start (s : SysState) (k : Nat) :
    (start s k).jobCounters = s.jobCounters := rfl

theorem counters_reschedule (s : SysState) (i : Nat) (d : Int) :
    (reschedule s i d).jobCounters = s.jobCounters := by
  unfold reschedule
  cases getInst s i with
  | none => rfl
  | some inst =>
      by_cases h : inst.cancelled <;> simp [h, counters_updInst]

theorem counters_cancel (s : SysState) (i : Nat) :
    (cancel s i).jobCounters = s.jobCounters := by
  unfold cancel
  cases getInst s i with
  | none => rfl
  | some inst =>
      by_cases h : inst.cancelled <;> simp [h, counters_updInst]

theorem counters_unqueue (s : SysState) (job : JobDesc) :
    (unqueue_next_job s job).jobCounters = s.jobCounters := by
  unfold unqueue_next_job
  by_cases h : is_job_limit_reached s job
  · simp [h]
  · simp [h]
    cases get_job_queue s job.name with
    | nil => rfl
    | cons k rest => rfl

theorem counters_reschedule_on_success (s : SysState) (i : Nat) (now : Int) :
    (reschedule_on_success s i now).jobCounters = s.jobCounters := by
  unfold reschedule_on_success
  cases getInst s i with
  | none => rfl
  | some inst => exact counters_reschedule s i _

theorem counters_reschedule_on_failure (s : SysState) (i : Nat) (f : JobFailure)
    (rand : Nat) :
    (reschedule_on_failure s i f rand).1.jobCounters = s.jobCounters := by
  unfold reschedule_on_failure
  exact counters_reschedule s i _

theorem instsJobs_count_job (s : SysState) (name : String) :
    instsJobs (count_job s name) = instsJobs s := rfl

theorem instsJobs_uncount_job (s : SysState) (name : String) :
    instsJobs (uncount_job s name) = instsJobs s := rfl

theorem instsJobs_setQueue (s : SysState) (name : String) (q : List Nat) :
    instsJobs (setQueue s name q) = instsJobs s := rfl

theorem instsJobs_queue_myself (s : SysState) (i : Nat) (name : String) :
    instsJobs (queue_myself s i name) = instsJobs s := rfl

theorem instsJobs_updInst (s : SysState) (i : Nat) (f : Sched → Sched)
    (h : ∀ t, (f t).job = t.job) :
    instsJobs (updInst s i f) = instsJobs s :=
  listModify_map Sched.job f h i s.insts

theorem instsJobs_start (s : SysState) (k : Nat) :
    instsJobs (start s k) = instsJobs s :=
  instsJobs_updInst s k _ (fun _ => rfl)

theorem instsJobs_reschedule (s : SysState) (i : Nat) (d : Int) :
    instsJobs (reschedule s i d) = instsJobs s := by
  unfold reschedule
  cases getInst s i with
  | none => rfl
  | some inst =>
      by_cases h : inst.cancelled
      · simp [h]
      · simp only [h, if_false, Bool.false_eq_true]
        exact instsJobs_updInst s i _ (fun t => rfl)

theorem instsJobs_cancel (s : SysState) (i : Nat) :
    instsJobs (cancel s i) = instsJobs s := by
  unfold cancel
  cases getInst s i with
  | none => rfl
  | some inst =>
      by_cases h : inst.cancelled
      · simp [h]
      · simp only [h, if_false, Bool.false_eq_true]
        exact instsJobs_updInst s i _ (fun t => rfl)

theorem instsJobs_unqueue (s : SysState) (job : JobDesc) :
    instsJobs (unqueue_next_job s job) = instsJobs s := by
  unfold unqueue_next_job
  by_cases h : is_job_limit_reached s job
  · simp [h]
  · simp [h]
    cases get_job_queue s job.name with
    | nil => rfl
    | cons k rest =>
        simp [instsJobs_start, instsJobs_setQueue]

theorem instsJobs_run_job (s : SysState) (i : Nat) (now : Int) (ctorOk : Bool) :
    instsJobs (run_job s i now ctorOk) = instsJobs s := by
  unfold run_job
  cases getInst s i with
  | none => rfl
  | some inst =>
      by_cases h1 : inst.jobHandler
      · simp [h1]
      · simp [h1]
        by_cases h2 : is_job_limit_reached s inst.job
        · simp [h2, instsJobs_queue_myself]
        · simp [h2]
          cases ctorOk with
          | false => simp [instsJobs_reschedule]
          | true => exact instsJobs_updInst s i _ (fun t => rfl)

theorem instsJobs_reschedule_on_success (s : SysState) (i : Nat) (now : Int) :
    instsJobs (reschedule_on_success s i now) = instsJobs s := by
  unfold reschedule_on_success
  cases getInst s i with
  | none => rfl
  | some inst => exact instsJobs_reschedule s i _

theorem instsJobs_reschedule_on_failure (s : SysState) (i : Nat) (f : JobFailure)
    (rand : Nat) :
    instsJobs (reschedule_on_failure s i f rand).1 = instsJobs s := by
  unfold reschedule_on_failure
  exact instsJobs_reschedule s i _

theorem instsJobs_unregister (s : SysState) (i : Nat) :
    instsJobs (unregister_handler s i) = instsJobs s := by
  unfold unregister_handler
  cases getInst s i with
  | none => rfl
  | some inst =>
      by_cases h : inst.jobHandler
      · simp only [h, if_true]
        rw [instsJobs_unqueue, instsJobs_uncount_job]
        exact instsJobs_updInst s i _ (fun t => rfl)
      · simp [h]

theorem instsJobs_handle_completion (s : SysState) (i : Nat) (res : JobResult)
    (now : Int) (rand : Nat) :
    instsJobs (handle_completion s i res now rand).1 = instsJobs s := by
  unfold handle_completion
  cases res with
  | success w =>
      simp [instsJobs_unregister, instsJobs_reschedule_on_success]
  | failure f =>
      simp [instsJobs_unregister, instsJobs_reschedule_on_failure]

theorem instsJobs_step (s : SysState) (e : Event) :
    instsJobs (step s e) = instsJobs s := by
  cases e with
  | timerFire i now ctorOk =>
      simp only [step]
      split
      · rfl
      · split
        · rfl
        · rw [instsJobs_run_job]
          exact instsJobs_updInst s i _ (fun t => rfl)
  | complete i res now rand =>
      simp only [step]
      split
      · rfl
      · split
        · exact instsJobs_handle_completion s _ _ _ _
        · rfl
  | cancelCall i => exact instsJobs_cancel s i
  | rescheduleCall i d => exact instsJobs_reschedule s i d

theorem instsJobs_initState (jobs : List JobDesc) :
    instsJobs (initState jobs) = jobs := by
  unfold instsJobs initState
  simp
  induction jobs with
  | nil => rfl
  | cons j t ih => simp [freshSched, ih]

theorem reachable_instsJobs (jobs : List JobDesc) (s : SysState)
    (h : Reachable jobs s) : instsJobs s = jobs := by
  induction h with
  | init => exact instsJobs_initState jobs
  | step s e _ ih => rw [instsJobs_step, ih]

theorem counters_unregister_le (s : SysState) (i : Nat) (n : String) :
    (unregister_handler s i).jobCounters n ≤ max (s.jobCounters n) 0 := by
  unfold unregister_handler
  cases getInst s i with
  | none => exact le_max_left _ _
  | some inst =>
      by_cases h : inst.jobHandler
      · simp only [h, if_true]
        rw [counters_unqueue]
        show (if n = inst.job.name then max (s.jobCounters inst.job.name - 1) 0
              else s.jobCounters n) ≤ max (s.jobCounters n) 0
        by_cases hn : n = inst.job.name
        · subst hn; simp only [if_pos rfl]; omega
        · simp only [if_neg hn]; exact le_max_left _ _
      · simp only [h, if_false, Bool.false_eq_true]
        exact le_max_left _ _

theorem counters_handle_completion_le (s : SysState) (i : Nat) (res : JobResult)
    (now : Int) (rand : Nat) (n : String) :
    (handle_completion s i res now rand).1.jobCounters n ≤ max (s.jobCounters n) 0 := by
  unfold handle_completion
  cases res with
  | success w =>
      have h := counters_unregister_le (reschedule_on_success s i now) i n
      rwa [counters_reschedule_on_success] at h
  | failure f =>
      have h := counters_unregister_le (reschedule_on_failure s i f rand).1 i n
      rwa [counters_reschedule_on_failure] at h

theorem counterInv_run_job (jobs : List JobDesc) (hc : JobsConsistent jobs)
    (s : SysState) (hj : instsJobs s = jobs) (hI : CounterInv jobs s)
    (i : Nat) (now : Int) (ctorOk : Bool) :
    CounterInv jobs (run_job s i now ctorOk) := by
  unfold run_job
  cases hg : getInst s i with
  | none => exact hI
  | some inst =>
      by_cases h1 : inst.jobHandler
      · simp only [h1, if_true]; exact hI
      · simp only [h1, if_false, Bool.false_eq_true]
        by_cases h2 : is_job_limit_reached s inst.job
        · simp only [h2, if_true]; exact hI
        · simp only [h2, if_false, Bool.false_eq_true]
          cases ctorOk with
          | false =>
              simp only [Bool.not_false, if_true]
              intro j hmem hpos
              rw [counters_reschedule]
              exact hI j hmem hpos
          | true =>
              simp only [Bool.not_true, if_false, Bool.false_eq_true]
              intro j hmem hpos
              have hg' : listGet s.insts i = some inst := hg
              have hjmem : inst.job ∈ jobs := by
                apply listGet_mem jobs i
                have hmap := listGet_map Sched.job s.insts i
                rw [hg'] at hmap
                rw [← hj]
                exact hmap
              show (if j.name = inst.job.name
                    then s.jobCounters inst.job.name + 1
                    else s.jobCounters j.name) ≤ j.intensity
              by_cases hn : j.name = inst.job.name
              · simp only [if_pos hn]
                have hint : j.intensity = inst.job.intensity := hc j hmem inst.job hjmem hn
                have hlt : s.jobCounters inst.job.name < inst.job.intensity := by
                  simp only [is_job_limit_reached, get_job_count, Bool.and_eq_true,
                             decide_eq_true_eq] at h2
                  rw [hint] at hpos
                  omega
                omega
              · simp only [if_neg hn]
                exact hI j hmem hpos

theorem counterInv_step (jobs : List JobDesc) (hc : JobsConsistent jobs)
    (s : SysState) (hj : instsJobs s = jobs) (hI : CounterInv jobs s) (e : Event) :
    CounterInv jobs (step s e) := by
  cases e with
  | timerFire i now ctorOk =>
      simp only [step]
      split
      · exact hI
      · split
        · exact hI
        · refine counterInv_run_job jobs hc
            (updInst s i fun t => { t with nextCall := none }) ?_ hI i now ctorOk
          rw [instsJobs_updInst s i (fun t => { t with nextCall := none }) (fun t => rfl)]
          exact hj
  | complete i res now rand =>
      simp only [step]
      split
      · exact hI
      · split
        · intro j hmem hpos
          have h := counters_handle_completion_le s i res now rand j.name
          have h2 := hI j hmem hpos
          omega
        · exact hI
  | cancelCall i =>
      intro j hmem hpos
      show (cancel s i).jobCounters j.name ≤ j.intensity
      rw [counters_cancel]
      exact hI j hmem hpos
  | rescheduleCall i d =>
      intro j hmem hpos
      show (reschedule s i d).jobCounters j.name ≤ j.intensity
      rw [counters_reschedule]
      exact hI j hmem hpos

theorem reachable_counterInv (jobs : List JobDesc) (hc : JobsConsistent jobs)
    (s : SysState) (hr : Reachable jobs s) : CounterInv jobs s := by
  induction hr with
  | init =>
      intro j hmem hpos
      show (0 : Int) ≤ j.intensity
      omega
  | step s e hr ih =>
      exact counterInv_step jobs hc s (reachable_instsJobs jobs s hr) ih e

theorem optionMap_isSome {α β : Type} (f : α → β) (o : Option α) :
    (o.map f).isSome = o.isSome := by
  cases o <;> rfl

theorem getInst_updInst_self (s : SysState) (i : Nat) (f : Sched → Sched) :
    getInst (updInst s i f) i = (getInst s i).map f :=
  listGet_modify_self f s.insts i

theorem getInst_updInst_map {β : Type} (g : Sched → β) (s : SysState) (i j : Nat)
    (f : Sched → Sched) (h : ∀ t, g (f t) = g t) :
    Option.map g (getInst (updInst s i f) j) = Option.map g (getInst s j) :=
  listGet_modify_map g f h s.insts i j

theorem getInst_updInst_isSome (s : SysState) (i j : Nat) (f : Sched → Sched) :
    (getInst (updInst s i f) j).isSome = (getInst s j).isSome :=
  listGet_modify_isSome f s.insts i j

theorem queues_reschedule (s : SysState) (i : Nat) (d : Int) :
    (reschedule s i d).jobQueues = s.jobQueues := by
  unfold reschedule
  cases getInst s i with
  | none => rfl
  | some inst =>
      by_cases h : inst.cancelled <;> simp [h, updInst]

theorem getInst_reschedule_map {β : Type} (g : Sched → β)
    (h : ∀ t d, g { t with nextCall := some d } = g t)
    (s : SysState) (i : Nat) (d : Int) (j : Nat) :
    Option.map g (getInst (reschedule s i d) j) = Option.map g (getInst s j) := by
  unfold reschedule
  cases getInst s i with
  | none => rfl
  | some inst =>
      by_cases hc : inst.cancelled
      · simp [hc]
      · simp only [hc, if_false, Bool.false_eq_true]
        exact getInst_updInst_map g s i j _ (fun t => h t d)

theorem getInst_unqueue_map {β : Type} (g : Sched → β)
    (h : ∀ t, g { t with nextCall := some 0 } = g t)
    (s : SysState) (job : JobDesc) (j : Nat) :
    Option.map g (getInst (unqueue_next_job s job) j) = Option.map g (getInst s j) := by
  unfold unqueue_next_job
  by_cases hl : is_job_limit_reached s job
  · simp [hl]
  · simp only [hl, if_false, Bool.false_eq_true]
    cases get_job_queue s job.name with
    | nil => rfl
    | cons k rest =>
        show Option.map g (getInst (start (setQueue s job.name rest) k) j) = _
        unfold start
        exact getInst_updInst_map g _ k j _ h

theorem unregister_spec (s1 : SysState) (i : Nat) (inst1 : Sched)
    (hg : getInst s1 i = some inst1) (hrun : inst1.jobHandler = true) :
    unregister_handler s1 i =
      unqueue_next_job
        (uncount_job (updInst s1 i fun t => { t with jobHandler := false })
          inst1.job.name)
        inst1.job := by
  unfold unregister_handler
  rw [hg]
  simp [hrun]

theorem unregister_clears_and_decrements (s1 : SysState) (i : Nat) (inst1 : Sched)
    (hg : getInst s1 i = some inst1) (hrun : inst1.jobHandler = true) :
    Option.map Sched.jobHandler (getInst (unregister_handler s1 i) i) = some false ∧
    (unregister_handler s1 i).jobCounters inst1.job.name =
      max (s1.jobCounters inst1.job.name - 1) 0 := by
  rw [unregister_spec s1 i inst1 hg hrun]
  constructor
  · rw [getInst_unqueue_map Sched.jobHandler (fun t => rfl)]
    show Option.map Sched.jobHandler
        (getInst (updInst s1 i fun t => { t with jobHandler := false }) i) = some false
    rw [getInst_updInst_self, hg]
    rfl
  · rw [counters_unqueue]
    show (if inst1.job.name = inst1.job.name
          then max (s1.jobCounters inst1.job.name - 1) 0
          else s1.jobCounters inst1.job.name) = _
    rw [if_pos rfl]

theorem unregister_pops_queue (s1 : SysState) (i k : Nat) (inst1 : Sched)
    (rest : List Nat)
    (hg : getInst s1 i = some inst1) (hrun : inst1.jobHandler = true)
    (hq : s1.jobQueues inst1.job.name = k :: rest)
    (hlim : ¬(0 < inst1.job.intensity ∧
        inst1.job.intensity ≤ max (s1.jobCounters inst1.job.name - 1) 0))
    (hk : (getInst s1 k).isSome = true) :
    (unregister_handler s1 i).jobQueues inst1.job.name = rest ∧
    Option.map Sched.nextCall (getInst (unregister_handler s1 i) k) = some (some 0) := by
  rw [unregister_spec s1 i inst1 hg hrun]
  have hc3 : (uncount_job (updInst s1 i fun t => { t with jobHandler := false })
      inst1.job.name).jobCounters inst1.job.name
      = max (s1.jobCounters inst1.job.name - 1) 0 := by
    show (if inst1.job.name = inst1.job.name
          then max (s1.jobCounters inst1.job.name - 1) 0
          else s1.jobCounters inst1.job.name) = _
    rw [if_pos rfl]
  have hlimB : is_job_limit_reached
      (uncount_job (updInst s1 i fun t => { t with jobHandler := false })
        inst1.job.name) inst1.job = false := by
    simp only [is_job_limit_reached, get_job_count, hc3, Bool.and_eq_false_iff,
               decide_eq_false_iff_not]
    omega
  have hq3 : get_job_queue
      (uncount_job (updInst s1 i fun t => { t with jobHandler := false })
        inst1.job.name) inst1.job.name = k :: rest := hq
  have hstep : unqueue_next_job
      (uncount_job (updInst s1 i fun t => { t with jobHandler := false })
        inst1.job.name) inst1.job
      = start (setQueue
          (uncount_job (updInst s1 i fun t => { t with jobHandler := false })
            inst1.job.name) inst1.job.name rest) k := by
    unfold unqueue_next_job
    rw [hlimB, hq3]
    simp
  rw [hstep]
  constructor
  · show (if inst1.job.name = inst1.job.name
          then rest
          else s1.jobQueues inst1.job.name) = rest
    rw [if_pos rfl]
  · unfold start
    rw [getInst_updInst_self]
    have hk3 : (getInst (setQueue
        (uncount_job (updInst s1 i fun t => { t with jobHandler := false })
          inst1.job.name) inst1.job.name rest) k).isSome = true := by
      show (getInst (updInst s1 i fun t => { t with jobHandler := false }) k).isSome = true
      rw [getInst_updInst_isSome]
      rw [hk]
    obtain ⟨t, ht⟩ := Option.isSome_iff_exists.mp hk3
    rw [ht]
    rfl

theorem unregister_after_reschedule (s : SysState) (i : Nat) (inst : Sched) (d : Int)
    (hg : getInst s i = some inst) (hrun : inst.jobHandler = true) :
    Option.map Sched.jobHandler
      (getInst (unregister_handler (reschedule s i d) i) i) = some false ∧
    (unregister_handler (reschedule s i d) i).jobCounters inst.job.name =
      max (s.jobCounters inst.job.name - 1) 0 := by
  have hmap := getInst_reschedule_map handlerAndJob (fun t dd => rfl) s i d i
  rw [hg] at hmap
  cases hgi : getInst (reschedule s i d) i with
  | none => rw [hgi] at hmap; exact absurd hmap (by simp)
  | some inst1 =>
      rw [hgi] at hmap
      simp [handlerAndJob] at hmap
      have hrun1 : inst1.jobHandler = true := hmap.1.trans hrun
      have hjob1 : inst1.job = inst.job := hmap.2
      have hA := unregister_clears_and_decrements (reschedule s i d) i inst1 hgi hrun1
      rw [hjob1, counters_reschedule] at hA
      exact hA

theorem unregister_after_reschedule_pops (s : SysState) (i k : Nat) (inst : Sched)
    (d : Int) (rest : List Nat)
    (hg : getInst s i = some inst) (hrun : inst.jobHandler = true)
    (hq : s.jobQueues inst.job.name = k :: rest)
    (hlim : ¬(0 < inst.job.intensity ∧
        inst.job.intensity ≤ max (s.jobCounters inst.job.name - 1) 0))
    (hk : (getInst s k).isSome = true) :
    (unregister_handler (reschedule s i d) i).jobQueues inst.job.name = rest ∧
    Option.map Sched.nextCall
      (getInst (unregister_handler (reschedule s i d) i) k) = some (some 0) := by
  have hmap := getInst_reschedule_map handlerAndJob (fun t dd => rfl) s i d i
  rw [hg] at hmap
  cases hgi : getInst (reschedule s i d) i with
  | none => rw [hgi] at hmap; exact absurd hmap (by simp)
  | some inst1 =>
      rw [hgi] at hmap
      simp [handlerAndJob] at hmap
      have hrun1 : inst1.jobHandler = true := hmap.1.trans hrun
      have hjob1 : inst1.job = inst.job := hmap.2
      have hk1 : (getInst (reschedule s i d) k).isSome = true := by
        have h2 := getInst_reschedule_map handlerAndJob (fun t dd => rfl) s i d k
        have h3 := congrArg Option.isSome h2
        rw [optionMap_isSome, optionMap_isSome] at h3
        rw [h3, hk]
      have hB := unregister_pops_queue (reschedule s i d) i k inst1 rest hgi hrun1
        (by rw [hjob1, queues_reschedule]; exact hq)
        (by rw [hjob1, counters_reschedule]; exact hlim)
        hk1
      rw [hjob1] at hB
      exact hB

theorem randint_mem (a b : Int) (r : Nat) (h : a ≤ b) :
    a ≤ randint a b r ∧ randint a b r ≤ b := by
  unfold randint
  have hpos : 0 < b - a + 1 := by omega
  have h1 : 0 ≤ (r : Int) % (b - a + 1) := Int.emod_nonneg _ (by omega)
  have h2 : (r : Int) % (b - a + 1) < b - a + 1 := Int.emod_lt_of_pos _ hpos
  omega

theorem reschedule_arms_timer (s : SysState) (i : Nat) (inst : Sched) (d : Int)
    (hg : getInst s i = some inst) (hcanc : inst.cancelled = false) :
    Option.map Sched.nextCall (getInst (reschedule s i d) i) = some (some d) := by
  unfold reschedule
  rw [hg]
  simp only [hcanc, Bool.false_eq_true, if_false]
  rw [getInst_updInst_self, hg]
  rfl

/-- C1: in every reachable state of the system (with job names being
unique configuration keys, so instances sharing a name share an
intensity), the class-level running counter of a job name with positive
intensity never exceeds that intensity — `run_job` calls `count_job`
only after `is_job_limit_reached` has returned false; and when the
intensity is 0 the limit check always returns false, so the count is
unbounded. -/
theorem running_counter_le_intensity (jobs : List JobDesc)
    (hc : JobsConsistent jobs) (s : SysState) (hr : Reachable jobs s) :
    (∀ j ∈ jobs, 0 < j.intensity → s.jobCounters j.name ≤ j.intensity) ∧
    (∀ job : JobDesc, job.intensity = 0 → is_job_limit_reached s job = false) := by
  refine ⟨reachable_counterInv jobs hc s hr, ?_⟩
  intro job hz
  simp [is_job_limit_reached, hz]

/-- Witness for C1 at the concrete one-job system in its start state. -/
theorem running_counter_le_intensity_witness :
    JobsConsistent [jobInventory] ∧
    ((∀ j ∈ [jobInventory], 0 < j.intensity →
        (initState [jobInventory]).jobCounters j.name ≤ j.intensity) ∧
     (∀ job : JobDesc, job.intensity = 0 →
        is_job_limit_reached (initState [jobInventory]) job = false)) :=
  ⟨by unfold JobsConsistent; decide,
   running_counter_le_intensity [jobInventory]
     (by unfold JobsConsistent; decide) _ Reachable.init⟩

/-- C2: a `run_job` invocation while the previous handler of this
instance is still running (`is_running`, i.e. `job_handler is not
None`) logs and returns: no handler is constructed, the job counter is
not incremented, nothing is enqueued, and the whole scheduler state is
unchanged. -/
theorem run_job_skips_when_running (s : SysState) (i : Nat) (inst : Sched)
    (now : Int) (ctorOk : Bool)
    (hg : getInst s i = some inst) (hrun : inst.jobHandler = true) :
    run_job s i now ctorOk = s := by
  unfold run_job
  rw [hg]
  simp [hrun]

/-- Witness for C2: instance 0 of `pairState` is running, so `run_job`
leaves the state untouched. -/
theorem run_job_skips_when_running_witness :
    getInst pairState 0 = some runningSched ∧
    runningSched.jobHandler = true ∧
    run_job pairState 0 5 true = pairState :=
  ⟨rfl, rfl, run_job_skips_when_running pairState 0 runningSched 5 true rfl rfl⟩

/-- C3: concrete run refuting the claim that after `cancel()` returns
nothing observable happens for that instance.  Instance 1 was cancelled
while waiting in the shared admission queue (first conjunct); `cancel`
leaves it in the queue, so when instance 0 completes, `unqueue_next_job`
pops instance 1 and `start` arms a fresh zero-delay timer for it (second
conjunct); when that timer fires, `run_job` — which never checks
`cancelled` — constructs a new handler for the cancelled instance and
increments the job counter (remaining conjuncts).  This contradicts the
docstring of `cancel`: future runs will not be scheduled after it. -/
theorem cancelled_scheduler_restarted_from_queue :
    Option.map Sched.cancelled (getInst afterCancelState 1) = some true ∧
    Option.map Sched.nextCall (getInst afterPopState 1) = some (some 0) ∧
    Option.map Sched.cancelled (getInst restartedState 1) = some true ∧
    Option.map Sched.jobHandler (getInst restartedState 1) = some true ∧
    restartedState.jobCounters "inventory" = 1 :=
  ⟨rfl, rfl, rfl, rfl, rfl⟩

/-- C5: after a successful handler run the next run is rescheduled at
delay `max(0, interval - elapsed_runtime)`: the timer of the instance is
armed at that delay, the delay is never negative, it equals
`interval - elapsed` when `elapsed < interval`, and it is exactly 0 when
`elapsed ≥ interval`. -/
theorem success_reschedule_delay (s : SysState) (i : Nat) (inst : Sched)
    (now : Int)
    (hg : getInst s i = some inst) (hcanc : inst.cancelled = false) :
    Option.map Sched.nextCall (getInst (reschedule_on_success s i now) i)
      = some (some (max 0 (inst.job.interval - get_runtime inst now))) ∧
    0 ≤ max 0 (inst.job.interval - get_runtime inst now) ∧
    (get_runtime inst now < inst.job.interval →
      max 0 (inst.job.interval - get_runtime inst now)
        = inst.job.interval - get_runtime inst now) ∧
    (inst.job.interval ≤ get_runtime inst now →
      max 0 (inst.job.interval - get_runtime inst now) = 0) := by
  refine ⟨?_, le_max_left 0 _, ?_, ?_⟩
  · unfold reschedule_on_success
    rw [hg]
    exact reschedule_arms_timer s i inst _ hg hcanc
  · intro h
    omega
  · intro h
    omega

/-- Witness for C5: instance 1 of `pairState` last started at 0; at
time 40 the rescheduled delay is 60 = 100 - 40. -/
theorem success_reschedule_delay_witness :
    getInst pairState 1 = some queuedSched ∧
    queuedSched.cancelled = false ∧
    (Option.map Sched.nextCall (getInst (reschedule_on_success pairState 1 40) 1)
      = some (some (max 0 (queuedSched.job.interval - get_runtime queuedSched 40))) ∧
     0 ≤ max 0 (queuedSched.job.interval - get_runtime queuedSched 40) ∧
     (get_runtime queuedSched 40 < queuedSched.job.interval →
       max 0 (queuedSched.job.interval - get_runtime queuedSched 40)
         = queuedSched.job.interval - get_runtime queuedSched 40) ∧
     (queuedSched.job.interval ≤ get_runtime queuedSched 40 →
       max 0 (queuedSched.job.interval - get_runtime queuedSched 40) = 0)) :=
  ⟨rfl, rfl, success_reschedule_delay pairState 1 queuedSched 40 rfl rfl⟩

/-- C6: a handler run failing with `SuggestedReschedule(delay=D)` is
rescheduled at exactly delay `D`, whatever the configured interval of
the job is (the statement holds for every `inst.job.interval`). -/
theorem suggested_reschedule_exact_delay (s : SysState) (i : Nat) (inst : Sched)
    (d : Int) (rand : Nat)
    (hg : getInst s i = some inst) (hcanc : inst.cancelled = false) :
    Option.map Sched.nextCall
      (getInst (reschedule_on_failure s i (JobFailure.suggestedReschedule d) rand).1 i)
      = some (some d) :=
  reschedule_arms_timer s i inst d hg hcanc

/-- Witness for C6 at delay 42. -/
theorem suggested_reschedule_exact_delay_witness :
    getInst pairState 1 = some queuedSched ∧
    queuedSched.cancelled = false ∧
    Option.map Sched.nextCall
      (getInst (reschedule_on_failure pairState 1
        (JobFailure.suggestedReschedule 42) 7).1 1) = some (some 42) :=
  ⟨rfl, rfl, suggested_reschedule_exact_delay pairState 1 queuedSched 42 7 rfl rfl⟩

/-- C7 (amended): a handler run failing with anything other than a
`SuggestedReschedule` is rescheduled at `randint(5*60, 10*60)`, and
every possible chosen delay `d` satisfies `300 ≤ d ≤ 600` — the upper
endpoint is included, because Python `random.randint(a, b)` is inclusive
on both ends, so the interval is the closed `[300, 600]`, not the
half-open `[300, 600)` the claim states. -/
theorem failure_reschedule_delay_range (s : SysState) (i : Nat) (inst : Sched)
    (f : JobFailure) (rand : Nat)
    (hg : getInst s i = some inst) (hcanc : inst.cancelled = false)
    (hf : ∀ d, f ≠ JobFailure.suggestedReschedule d) :
    Option.map Sched.nextCall (getInst (reschedule_on_failure s i f rand).1 i)
      = some (some (randint (5 * 60) (10 * 60) rand)) ∧
    300 ≤ randint (5 * 60) (10 * 60) rand ∧
    randint (5 * 60) (10 * 60) rand ≤ 600 := by
  have hr := randint_mem (5 * 60) (10 * 60) rand (by norm_num)
  refine ⟨?_, by omega, by omega⟩
  cases f with
  | suggestedReschedule d => exact absurd rfl (hf d)
  | abortedJob => exact reschedule_arms_timer s i inst _ hg hcanc
  | otherFailure => exact reschedule_arms_timer s i inst _ hg hcanc

/-- Witness for C7 with random source 4: the delay is 304. -/
theorem failure_reschedule_delay_range_witness :
    getInst pairState 1 = some queuedSched ∧
    queuedSched.cancelled = false ∧
    (∀ d, JobFailure.otherFailure ≠ JobFailure.suggestedReschedule d) ∧
    (Option.map Sched.nextCall
        (getInst (reschedule_on_failure pairState 1 JobFailure.otherFailure 4).1 1)
        = some (some (randint (5 * 60) (10 * 60) 4)) ∧
     300 ≤ randint (5 * 60) (10 * 60) 4 ∧
     randint (5 * 60) (10 * 60) 4 ≤ 600) :=
  ⟨rfl, rfl, fun _ h => JobFailure.noConfusion h,
   failure_reschedule_delay_range pairState 1 queuedSched JobFailure.otherFailure 4
     rfl rfl (fun _ h => JobFailure.noConfusion h)⟩

/-- C7 counterexample: with random source 300 the chosen delay is
exactly 600 — `randint(5*60, 10*60)` includes the upper endpoint — so
the claim that every possible delay `d` satisfies `d < 600` is false. -/
theorem failure_delay_reaches_600 :
    Option.map Sched.nextCall
      (getInst (reschedule_on_failure pairState 1 JobFailure.otherFailure 300).1 1)
      = some (some 600) ∧
    ¬(600 : Int) < 600 :=
  ⟨rfl, by omega⟩

/-- C10: `uncount_job` clamps the shared per-job-name counter at zero
(`max(current_count - 1, 0)`), so starting from any non-negative value,
every sequence of `count_job` / `uncount_job` calls — including spurious
extra decrements — leaves the counter non-negative. -/
theorem job_counter_nonneg (s : SysState) (name : String) (ops : List CounterOp)
    (n : String) (h : 0 ≤ s.jobCounters n) :
    0 ≤ (apply_counter_ops s name ops).jobCounters n := by
  revert h
  induction ops generalizing s with
  | nil => intro h; exact h
  | cons op rest ih =>
      intro h
      cases op with
      | countOp =>
          refine ih (count_job s name) ?_
          show (0 : Int) ≤ if n = name then s.jobCounters name + 1 else s.jobCounters n
          by_cases hn : n = name
          · rw [if_pos hn]
            rw [hn] at h
            omega
          · rw [if_neg hn]
            exact h
      | uncountOp =>
          refine ih (uncount_job s name) ?_
          show (0 : Int) ≤ if n = name
              then max (s.jobCounters name - 1) 0 else s.jobCounters n
          by_cases hn : n = name
          · rw [if_pos hn]
            exact le_max_right _ _
          · rw [if_neg hn]
            exact h

/-- C4: when a running handler of instance `i` completes — with any
result: success, suggested reschedule, aborted, or any other failure —
the completion path clears the running handler, decrements the job
counter (clamped at zero), and, when the ceiling now permits and the
per-job FIFO queue is non-empty, pops exactly the head `k` of the queue
and starts it at once (a zero-delay timer, not the popped instance's own
original timer). -/
theorem completion_decrements_and_starts_next (s : SysState) (i k : Nat)
    (inst : Sched) (res : JobResult) (now : Int) (rand : Nat) (rest : List Nat)
    (hg : getInst s i = some inst) (hrun : inst.jobHandler = true)
    (hq : s.jobQueues inst.job.name = k :: rest)
    (hlim : ¬(0 < inst.job.intensity ∧
        inst.job.intensity ≤ max (s.jobCounters inst.job.name - 1) 0))
    (hk : (getInst s k).isSome = true) :
    Option.map Sched.jobHandler
      (getInst (step s (Event.complete i res now rand)) i) = some false ∧
    (step s (Event.complete i res now rand)).jobCounters inst.job.name
      = max (s.jobCounters inst.job.name - 1) 0 ∧
    (step s (Event.complete i res now rand)).jobQueues inst.job.name = rest ∧
    Option.map Sched.nextCall
      (getInst (step s (Event.complete i res now rand)) k) = some (some 0) := by
  have hstep : step s (Event.complete i res now rand)
      = (handle_completion s i res now rand).1 := by
    simp only [step]
    rw [hg]
    simp [hrun]
  obtain ⟨d, hd⟩ : ∃ d, (handle_completion s i res now rand).1
      = unregister_handler (reschedule s i d) i := by
    cases res with
    | success w =>
        refine ⟨max 0 (inst.job.interval - get_runtime inst now), ?_⟩
        show unregister_handler (reschedule_on_success s i now) i = _
        unfold reschedule_on_success
        rw [hg]
    | failure f =>
        cases f with
        | suggestedReschedule dd => exact ⟨dd, rfl⟩
        | abortedJob => exact ⟨randint (5 * 60) (10 * 60) rand, rfl⟩
        | otherFailure => exact ⟨randint (5 * 60) (10 * 60) rand, rfl⟩
  rw [hstep, hd]
  have hA := unregister_after_reschedule s i inst d hg hrun
  have hB := unregister_after_reschedule_pops s i k inst d rest hg hrun hq hlim hk
  exact ⟨hA.1, hA.2, hB.1, hB.2⟩

/-- Witness for C4: in `pairState` (intensity 1, instance 0 running,
instance 1 queued), the successful completion of instance 0 frees the
slot, empties the queue and arms a zero-delay timer for instance 1. -/
theorem completion_decrements_and_starts_next_witness :
    getInst pairState 0 = some runningSched ∧
    runningSched.jobHandler = true ∧
    pairState.jobQueues runningSched.job.name = 1 :: [] ∧
    ¬(0 < runningSched.job.intensity ∧
        runningSched.job.intensity
          ≤ max (pairState.jobCounters runningSched.job.name - 1) 0) ∧
    (getInst pairState 1).isSome = true ∧
    (Option.map Sched.jobHandler
        (getInst (step pairState (Event.complete 0 (JobResult.success true) 10 0)) 0)
        = some false ∧
     (step pairState (Event.complete 0 (JobResult.success true) 10 0)).jobCounters
        runningSched.job.name
        = max (pairState.jobCounters runningSched.job.name - 1) 0 ∧
     (step pairState (Event.complete 0 (JobResult.success true) 10 0)).jobQueues
        runningSched.job.name = [] ∧
     Option.map Sched.nextCall
        (getInst (step pairState (Event.complete 0 (JobResult.success true) 10 0)) 1)
        = some (some 0)) :=
  ⟨rfl, rfl, by decide, by decide, rfl,
   completion_decrements_and_starts_next pairState 0 1 runningSched
     (JobResult.success true) 10 0 [] rfl rfl (by decide) (by decide) rfl⟩

/-- C8: a timer fire whose handler construction raises — for an armed,
idle, non-cancelled instance under the intensity ceiling — reschedules
the same instance at exactly 60 seconds; no handler is recorded as
running and the job counters are untouched at every name. -/
theorem ctor_failure_reschedules_60 (s : SysState) (i : Nat) (inst : Sched)
    (now t : Int)
    (hg : getInst s i = some inst) (harm : inst.nextCall = some t)
    (hidle : inst.jobHandler = false) (hcanc : inst.cancelled = false)
    (hlim : is_job_limit_reached s inst.job = false) :
    Option.map Sched.nextCall (getInst (step s (Event.timerFire i now false)) i)
      = some (some 60) ∧
    Option.map Sched.jobHandler (getInst (step s (Event.timerFire i now false)) i)
      = some false ∧
    (∀ n, (step s (Event.timerFire i now false)).jobCounters n = s.jobCounters n) := by
  have hg1 : getInst (updInst s i fun t2 => { t2 with nextCall := none }) i
      = some { inst with nextCall := none } := by
    rw [getInst_updInst_self, hg]
    rfl
  have hstep : step s (Event.timerFire i now false)
      = run_job (updInst s i fun t2 => { t2 with nextCall := none }) i now false := by
    simp only [step]
    rw [hg]
    show (match inst.nextCall with
          | none => s
          | some _ =>
              run_job (updInst s i fun t2 => { t2 with nextCall := none }) i now false) = _
    rw [harm]
  have hrj : run_job (updInst s i fun t2 => { t2 with nextCall := none }) i now false
      = reschedule (updInst s i fun t2 => { t2 with nextCall := none }) i 60 := by
    unfold run_job
    rw [hg1]
    have hlim1 : is_job_limit_reached
        (updInst s i fun t2 => { t2 with nextCall := none })
        ({ inst with nextCall := none }).job = false := hlim
    simp [hidle, hlim1]
  rw [hstep, hrj]
  refine ⟨?_, ?_, ?_⟩
  · exact reschedule_arms_timer _ i { inst with nextCall := none } 60 hg1 hcanc
  · rw [getInst_reschedule_map Sched.jobHandler (fun t2 dd => rfl) _ i 60 i, hg1]
    exact congrArg some hidle
  · intro n
    rw [counters_reschedule]
    rfl

/-- Witness for C8 on the freshly started one-job system: the fire of
the initial timer with a failing constructor arms a 60 second timer and
leaves the counters at zero. -/
theorem ctor_failure_reschedules_60_witness :
    getInst (initState [jobInventory]) 0 = some (freshSched jobInventory) ∧
    (freshSched jobInventory).nextCall = some 0 ∧
    (freshSched jobInventory).jobHandler = false ∧
    (freshSched jobInventory).cancelled = false ∧
    is_job_limit_reached (initState [jobInventory]) (freshSched jobInventory).job
      = false ∧
    (Option.map Sched.nextCall
        (getInst (step (initState [jobInventory]) (Event.timerFire 0 7 false)) 0)
        = some (some 60) ∧
     Option.map Sched.jobHandler
        (getInst (step (initState [jobInventory]) (Event.timerFire 0 7 false)) 0)
        = some false ∧
     (∀ n, (step (initState [jobInventory]) (Event.timerFire 0 7 false)).jobCounters n
        = (initState [jobInventory]).jobCounters n)) :=
  ⟨rfl, rfl, rfl, rfl, by decide,
   ctor_failure_reschedules_60 (initState [jobInventory]) 0 (freshSched jobInventory)
     7 0 rfl rfl rfl rfl (by decide)⟩

/-- C9: a handler run that fails is rescheduled and then
`failure.trap(AbortedJobError)` runs: an aborted-run failure (including
the suggested-reschedule subclass) is swallowed and never reaches the
unhandled-error logger, while any other failure is re-raised out of the
failure callback and logged by `_log_unhandled_error`; in both cases the
final `_unregister_handler` callback still runs, clearing the handler
and decrementing the job counter, so scheduling continues. -/
theorem failure_completion_path (s : SysState) (i : Nat) (inst : Sched)
    (f : JobFailure) (now : Int) (rand : Nat)
    (hg : getInst s i = some inst) (hrun : inst.jobHandler = true) :
    (handle_completion s i (JobResult.failure f) now rand).2.unhandledLogged
      = !(is_aborted_job_error f) ∧
    Option.map Sched.jobHandler
      (getInst (handle_completion s i (JobResult.failure f) now rand).1 i)
      = some false ∧
    (handle_completion s i (JobResult.failure f) now rand).1.jobCounters
      inst.job.name = max (s.jobCounters inst.job.name - 1) 0 := by
  obtain ⟨d, hd⟩ : ∃ d, (handle_completion s i (JobResult.failure f) now rand).1
      = unregister_handler (reschedule s i d) i := by
    cases f with
    | suggestedReschedule dd => exact ⟨dd, rfl⟩
    | abortedJob => exact ⟨randint (5 * 60) (10 * 60) rand, rfl⟩
    | otherFailure => exact ⟨randint (5 * 60) (10 * 60) rand, rfl⟩
  have hA := unregister_after_reschedule s i inst d hg hrun
  refine ⟨by cases f <;> rfl, ?_, ?_⟩
  · rw [hd]
    exact hA.1
  · rw [hd]
    exact hA.2

/-- Witness for C9: instance 0 of `pairState` fails with an aborted run;
the failure is swallowed, the handler cleared and the counter freed. -/
theorem failure_completion_path_witness :
    getInst pairState 0 = some runningSched ∧
    runningSched.jobHandler = true ∧
    ((handle_completion pairState 0 (JobResult.failure JobFailure.abortedJob) 3 5).2.unhandledLogged
      = !(is_aborted_job_error JobFailure.abortedJob) ∧
     Option.map Sched.jobHandler
      (getInst (handle_completion pairState 0
        (JobResult.failure JobFailure.abortedJob) 3 5).1 0) = some false ∧
     (handle_completion pairState 0
        (JobResult.failure JobFailure.abortedJob) 3 5).1.jobCounters
        runningSched.job.name
      = max (pairState.jobCounters runningSched.job.name - 1) 0) :=
  ⟨rfl, rfl,
   failure_completion_path pairState 0 runningSched JobFailure.abortedJob 3 5 rfl rfl⟩

/-- Witness for C10: two spurious decrements from an all-zero counter
table leave the counter at 0, not negative. -/
theorem job_counter_nonneg_witness :
    0 ≤ (initState []).jobCounters "ip2mac" ∧
    0 ≤ (apply_counter_ops (initState []) "ip2mac"
          [CounterOp.uncountOp, CounterOp.uncountOp]).jobCounters "ip2mac" :=
  ⟨by decide,
   job_counter_nonneg (initState []) "ip2mac"
     [CounterOp.uncountOp, CounterOp.uncountOp] "ip2mac" (by decide)⟩

end NavSchedule
